import Mathlib

/-!
Verification development for the `image-go-exercice` repository
(`src/main.go`): a batch image-filter tool with two concurrent dispatch
strategies (a single sequential worker over an unbuffered channel, and a
fan-out of one goroutine per directory entry over a buffered channel).

The Go code is shallowly embedded: file-system and image-library effects
(`ioutil.ReadDir`, `imaging.Open`, `imaging.Save`) are abstracted into an
environment of oracles, and each run is modelled as the total function
computing the trace it produces — console lines, collaborator calls, and
completion events sent on the channel.  Because the run functions are
total, eventual channel closure and collector-loop termination are
reflected by the functions returning a finite trace.  Completion order is
deterministic for the single-worker strategy (the worker sends
sequentially on an unbuffered channel and the collector prints in receive
order), so its completions are a `List`; the fan-out strategy's completion
arrival order is scheduler-dependent, so its completions are exposed as a
`Multiset`.
-/

namespace ImageGo

/-- One entry returned by directory enumeration (`os.FileInfo` as used by
the code: its name and whether it is a directory). -/
structure FileInfo where
  name : String
  isDir : Bool
deriving DecidableEq, Repr

/-- The effect oracles the program interacts with: `readDir` models
`ioutil.ReadDir` (error message or entry list), `openErr` models whether
`imaging.Open` fails at a path (`some msg` is a failure), and `saveErr`
models whether `imaging.Save` fails at a destination path. -/
structure Env where
  readDir : String → Except String (List FileInfo)
  openErr : String → Option String
  saveErr : String → Option String

/-- Models `filepath.Join(dir, name)` for a directory and a file name. -/
def pathJoin (dir name : String) : String := dir ++ "/" ++ name

/-- A call issued to the file system or to the `imaging` collaborator. -/
inductive Op where
  | readDirOp (path : String)
  | openImg (path : String)
  | grayscaleOp
  | blurOp (radius : ℚ)
  | saveImg (path : String)
deriving DecidableEq, Repr

/-- A console line other than the per-item completion notification. -/
inductive Line where
  | errReadDir (msg : String)
  | errGrayscale (name msg : String)
  | errBlur (name msg : String)
  | invalidFilter (f : String)
  | usage
  | invalidTask (t : String)
deriving DecidableEq, Repr

/-- The radius constant passed to `imaging.Blur` at src/main.go line 42
(the literal `5.0`). -/
def blurRadius : ℚ := 5

/-- Shallow embedding of `applyGrayscaleFilter` (src/main.go lines 14-31):
open the source image, apply `imaging.Grayscale`, save to `destPath`.
Returns the error, if any, together with the collaborator calls issued. -/
def applyGrayscaleFilter (env : Env) (srcPath destPath : String) :
    Option String × List Op :=
  match env.openErr srcPath with
  | some e => (some e, [Op.openImg srcPath])
  | none =>
      match env.saveErr destPath with
      | some e => (some e, [Op.openImg srcPath, Op.grayscaleOp, Op.saveImg destPath])
      | none => (none, [Op.openImg srcPath, Op.grayscaleOp, Op.saveImg destPath])

/-- Shallow embedding of `applyBlurFilter` (src/main.go lines 34-51):
open the source image, apply `imaging.Blur` with the fixed radius `5.0`,
save to `destPath`. -/
def applyBlurFilter (env : Env) (srcPath destPath : String) :
    Option String × List Op :=
  match env.openErr srcPath with
  | some e => (some e, [Op.openImg srcPath])
  | none =>
      match env.saveErr destPath with
      | some e => (some e, [Op.openImg srcPath, Op.blurOp blurRadius, Op.saveImg destPath])
      | none => (none, [Op.openImg srcPath, Op.blurOp blurRadius, Op.saveImg destPath])

/-- What processing one work item produces: error-report lines, collaborator
calls, and the single completion event (`ch <- fileName`) that ends the
per-item body in both strategies. -/
structure ItemResult where
  reports : List Line
  ops : List Op
  completion : String
deriving DecidableEq, Repr

/-- Shallow embedding of the per-item body shared verbatim by both
strategies (src/main.go lines 72-93 and 142-163): derive the source and
destination paths, switch on the filter string, report any error, and
always send the file name on the completion channel. -/
def processItem (env : Env) (srcPath destPath filter fileName : String) :
    ItemResult :=
  let srcFilePath := pathJoin srcPath fileName
  let destFilePath := pathJoin destPath fileName
  if filter = "grayscale" then
    match applyGrayscaleFilter env srcFilePath destFilePath with
    | (some e, ops) => ⟨[Line.errGrayscale fileName e], ops, fileName⟩
    | (none, ops) => ⟨[], ops, fileName⟩
  else if filter = "blur" then
    match applyBlurFilter env srcFilePath destFilePath with
    | (some e, ops) => ⟨[Line.errBlur fileName e], ops, fileName⟩
    | (none, ops) => ⟨[], ops, fileName⟩
  else
    ⟨[Line.invalidFilter filter], [], fileName⟩

/-- The non-directory entries of an enumeration, in enumeration order. -/
def eligibleEntries (entries : List FileInfo) : List FileInfo :=
  entries.filter (fun f => !f.isDir)

/-- Shallow embedding of the worker loop of `applyFilters`
(src/main.go lines 67-94): iterate over the enumerated entries, `continue`
past directories, and process each file, producing item results in
enumeration order. -/
def applyFiltersLoop (env : Env) (srcPath destPath filter : String) :
    List FileInfo → List ItemResult
  | [] => []
  | f :: rest =>
      if f.isDir then applyFiltersLoop env srcPath destPath filter rest
      else
        processItem env srcPath destPath filter f.name ::
          applyFiltersLoop env srcPath destPath filter rest

/-- Shallow embedding of `applyFilters` (src/main.go lines 55-95), the
single worker of Dispatch Strategy A: enumerate the source directory; on
failure print the error and return (the deferred `wg.Done` still runs, so
the supervisor closes the channel); otherwise run the loop.  Returns the
enumeration-error lines and the ordered item results, whose completions the
worker sends one by one on the unbuffered channel. -/
def applyFilters (env : Env) (srcPath destPath filter : String) :
    List Line × List ItemResult :=
  match env.readDir srcPath with
  | .error e => ([Line.errReadDir e], [])
  | .ok fileList => ([], applyFiltersLoop env srcPath destPath filter fileList)

/-- The observable trace of a Strategy A run: error-report lines,
file-system and collaborator calls, and the "Finished processing" names in
the order the collector prints them. -/
structure RunTrace where
  reports : List Line
  ops : List Op
  completions : List String
deriving DecidableEq, Repr

/-- Shallow embedding of `processImagesWithWaitGroup` (src/main.go lines
98-116): spawn the single `applyFilters` worker, let a supervisor close
the channel once the wait-group reaches zero, and drain the channel,
printing one "Finished processing" line per received name.  The single
worker sends sequentially on an unbuffered channel, so the collector
prints completions in enumeration order. -/
def processImagesWithWaitGroup (env : Env) (srcPath destPath filter : String) :
    RunTrace :=
  match applyFilters env srcPath destPath filter with
  | (errLines, items) =>
      { reports := errLines ++ (items.map (fun r => r.reports)).flatten
        ops := Op.readDirOp srcPath :: (items.map (fun r => r.ops)).flatten
        completions := items.map (fun r => r.completion) }

/-- Shallow embedding of the goroutine body spawned for each enumerated
entry by `processImagesWithChannel` (src/main.go lines 133-164): a
directory entry makes the goroutine return without processing or sending
(`none`); a file entry is processed and its completion sent. -/
def channelWorker (env : Env) (srcPath destPath filter : String)
    (f : FileInfo) : Option ItemResult :=
  if f.isDir then none
  else some (processItem env srcPath destPath filter f.name)

/-- The scheduler-independent observables of a Strategy B run
(`processImagesWithChannel`, src/main.go lines 119-177): the enumeration
error if the batch aborted, the entries for which a goroutine was spawned
(in spawn order), the buffered channel's capacity (`none` when the batch
aborted before the channel was allocated), and each goroutine's outcome,
indexed like `spawned`.  The collector receives the completions of the
`some` results in a scheduler-dependent order. -/
structure ChannelRun where
  enumError : Option String
  spawned : List FileInfo
  capacity : Option Nat
  results : List (Option ItemResult)
deriving DecidableEq, Repr

/-- Shallow embedding of `processImagesWithChannel` (src/main.go lines
119-177) up to scheduling: enumerate in the caller goroutine (on failure
print the error and return before any goroutine is spawned), allocate a
channel of capacity `len(fileList)`, spawn one goroutine per entry, have a
supervisor close the channel when the wait-group reaches zero, and drain
the channel. -/
def processImagesWithChannel (env : Env) (srcPath destPath filter : String) :
    ChannelRun :=
  match env.readDir srcPath with
  | .error e =>
      { enumError := some e, spawned := [], capacity := none, results := [] }
  | .ok fileList =>
      { enumError := none
        spawned := fileList
        capacity := some fileList.length
        results := fileList.map (channelWorker env srcPath destPath filter) }

/-- The item results actually produced by a Strategy B run (goroutines
spawned for directory entries contribute nothing). -/
def ChannelRun.itemResults (r : ChannelRun) : List ItemResult :=
  r.results.reduceOption

/-- The multiset of completion events a Strategy B run sends on the
channel; the collector prints exactly one "Finished processing" line per
element, in a scheduler-dependent order. -/
def channelCompletions (r : ChannelRun) : Multiset String :=
  ↑(r.itemResults.map (fun i => i.completion))

/-- The error-report lines of a Strategy B run (global interleaving with
completion lines is scheduler-dependent; listed per item in spawn order). -/
def channelReports (env : Env) (srcPath destPath filter : String) :
    List Line :=
  match processImagesWithChannel env srcPath destPath filter with
  | r =>
      (match r.enumError with | some e => [Line.errReadDir e] | none => []) ++
        (r.itemResults.map (fun i => i.reports)).flatten

/-- The file-system and collaborator calls of a Strategy B run
(`ReadDir` is always called; per-item calls in spawn order). -/
def channelOps (env : Env) (srcPath destPath filter : String) : List Op :=
  Op.readDirOp srcPath ::
    ((processImagesWithChannel env srcPath destPath filter).itemResults.map
      (fun i => i.ops)).flatten

/-- The observable trace of a whole `main` run, after flag parsing.
`main` never calls `os.Exit`, so every path returns normally with exit
status 0; completions are a multiset because Strategy B's print order is
scheduler-dependent. -/
structure MainTrace where
  lines : List Line
  ops : List Op
  completions : Multiset String
deriving DecidableEq

/-- Shallow embedding of `main` (src/main.go lines 179-203) applied to the
parsed values of the four flags: if any flag is empty, print the usage
line and return; otherwise dispatch on the task string, with an
unrecognized value printing "Invalid task method" and doing nothing. -/
def mainRun (env : Env) (srcPath destPath filter task : String) : MainTrace :=
  if srcPath = "" ∨ destPath = "" ∨ filter = "" ∨ task = "" then
    { lines := [Line.usage], ops := [], completions := 0 }
  else if task = "waitgrp" then
    match processImagesWithWaitGroup env srcPath destPath filter with
    | t => { lines := t.reports, ops := t.ops, completions := ↑t.completions }
  else if task = "channel" then
    { lines := channelReports env srcPath destPath filter
      ops := channelOps env srcPath destPath filter
      completions :=
        channelCompletions (processImagesWithChannel env srcPath destPath filter) }
  else
    { lines := [Line.invalidTask task], ops := [], completions := 0 }

/-! Helper lemmas. -/

lemma processItem_completion_eq (env : Env) (s d fl n : String) :
    (processItem env s d fl n).completion = n := by
  by_cases hg : fl = "grayscale" <;> by_cases hb : fl = "blur" <;>
    rcases h1 : env.openErr (pathJoin s n) with _ | e <;>
    rcases h2 : env.saveErr (pathJoin d n) with _ | e' <;>
    simp [processItem, applyGrayscaleFilter, applyBlurFilter, hg, hb, h1, h2]

lemma processItem_invalid (env : Env) (s d fl n : String)
    (hg : fl ≠ "grayscale") (hb : fl ≠ "blur") :
    processItem env s d fl n = ⟨[Line.invalidFilter fl], [], n⟩ := by
  simp [processItem, hg, hb]

lemma processItem_blurOp (env : Env) (s d fl n : String) (r : ℚ)
    (h : Op.blurOp r ∈ (processItem env s d fl n).ops) :
    r = 5 := by
  by_cases hg : fl = "grayscale" <;> by_cases hb : fl = "blur" <;>
    rcases h1 : env.openErr (pathJoin s n) with _ | e <;>
    rcases h2 : env.saveErr (pathJoin d n) with _ | e' <;>
    simp [processItem, applyGrayscaleFilter, applyBlurFilter, blurRadius,
      hg, hb, h1, h2] at h <;>
    simp [h]

lemma applyFiltersLoop_eq_map (env : Env) (s d fl : String)
    (l : List FileInfo) :
    applyFiltersLoop env s d fl l
      = (eligibleEntries l).map (fun f => processItem env s d fl f.name) := by
  induction l with
  | nil => simp [applyFiltersLoop, eligibleEntries]
  | cons f rest ih =>
      by_cases hf : f.isDir <;>
        simp [applyFiltersLoop, eligibleEntries, List.filter_cons, hf, ih]

lemma channelWorkers_eq_map (env : Env) (s d fl : String)
    (l : List FileInfo) :
    l.filterMap (channelWorker env s d fl)
      = (eligibleEntries l).map (fun f => processItem env s d fl f.name) := by
  induction l with
  | nil => simp [eligibleEntries]
  | cons f rest ih =>
      by_cases hf : f.isDir <;>
        simp [channelWorker, eligibleEntries, List.filter_cons,
          List.filterMap_cons, hf, ih]

lemma channel_itemResults_eq_applyFilters (env : Env) (s d fl : String) :
    (processImagesWithChannel env s d fl).itemResults
      = (applyFilters env s d fl).2 := by
  rcases h : env.readDir s with e | entries <;>
    simp [processImagesWithChannel, applyFilters, ChannelRun.itemResults, h,
      List.reduceOption, channelWorkers_eq_map, applyFiltersLoop_eq_map]

/-! Concrete environments used to instantiate the theorems. -/

/-- An environment whose source directory holds the files `a.png` and
`b.png` around a subdirectory `sub`; every open and save succeeds. -/
def envW : Env :=
  { readDir := fun _ =>
      .ok [⟨"a.png", false⟩, ⟨"sub", true⟩, ⟨"b.png", false⟩]
    openErr := fun _ => none
    saveErr := fun _ => none }

/-- An environment whose source directory cannot be enumerated. -/
def envErr : Env :=
  { readDir := fun _ => .error "permission denied"
    openErr := fun _ => none
    saveErr := fun _ => none }

/-- An environment whose source directory holds a single subdirectory. -/
def envDirOnly : Env :=
  { readDir := fun _ => .ok [⟨"sub", true⟩]
    openErr := fun _ => none
    saveErr := fun _ => none }

/-! The claims. -/

/-- C1: for a batch whose enumeration yields `entries` with N
non-directory entries, both dispatch strategies produce exactly N
completion events — N "Finished processing" lines — and an empty
enumeration yields zero notifications.  The completion channel being
closed and the collector loop terminating are reflected by the run
functions being total: each run denotes a finite trace. -/
theorem completion_count_matches_eligible (env : Env) (s d fl : String)
    (entries : List FileInfo) (h : env.readDir s = .ok entries) :
    (processImagesWithWaitGroup env s d fl).completions.length
      = (eligibleEntries entries).length ∧
    Multiset.card (channelCompletions (processImagesWithChannel env s d fl))
      = (eligibleEntries entries).length ∧
    (entries = [] →
      (processImagesWithWaitGroup env s d fl).completions = [] ∧
      channelCompletions (processImagesWithChannel env s d fl) = 0) := by
  have hA : (processImagesWithWaitGroup env s d fl).completions
      = (eligibleEntries entries).map
          (fun f => (processItem env s d fl f.name).completion) := by
    simp [processImagesWithWaitGroup, applyFilters, h, applyFiltersLoop_eq_map]
  have hitems : (processImagesWithChannel env s d fl).itemResults
      = (eligibleEntries entries).map (fun f => processItem env s d fl f.name) := by
    rw [channel_itemResults_eq_applyFilters]
    simp [applyFilters, h, applyFiltersLoop_eq_map]
  have hB : channelCompletions (processImagesWithChannel env s d fl)
      = ↑((eligibleEntries entries).map
          (fun f => (processItem env s d fl f.name).completion)) := by
    rw [channelCompletions, hitems, List.map_map]
    rfl
  refine ⟨by simp [hA], by simp [hB], ?_⟩
  rintro rfl
  simp [hA, hB, eligibleEntries]

/-- Instantiation of `completion_count_matches_eligible` on `envW`
(files `a.png`, `b.png` and subdirectory `sub`): two completions under
either strategy. -/
theorem completion_count_matches_eligible_witness :
    (processImagesWithWaitGroup envW "s" "d" "grayscale").completions.length = 2 ∧
    Multiset.card
      (channelCompletions (processImagesWithChannel envW "s" "d" "grayscale")) = 2 := by
  have h := completion_count_matches_eligible envW "s" "d" "grayscale"
    [⟨"a.png", false⟩, ⟨"sub", true⟩, ⟨"b.png", false⟩] rfl
  have he : (eligibleEntries
      [⟨"a.png", false⟩, ⟨"sub", true⟩, ⟨"b.png", false⟩] : List FileInfo).length = 2 := by
    decide
  exact ⟨he ▸ h.1, he ▸ h.2.1⟩

/-- C2: the per-item body always ends with the channel send, so every
work item emits exactly one completion event carrying the file name,
whatever the outcome; an unrecognized filter value produces no collaborator
call at all (so no destination file is written), exactly one
"Invalid filter" report per attempted item, and — batch-wide, under both
strategies — no save operation anywhere, while the completion (and hence
the "Finished processing" line) is still produced. -/
theorem item_always_emits_one_completion (env : Env) (s d fl n : String) :
    (processItem env s d fl n).completion = n ∧
    (fl ≠ "grayscale" → fl ≠ "blur" →
      (processItem env s d fl n).reports = [Line.invalidFilter fl] ∧
      (processItem env s d fl n).ops = [] ∧
      (∀ p, Op.saveImg p ∉ (processImagesWithWaitGroup env s d fl).ops) ∧
      (∀ p, Op.saveImg p ∉ channelOps env s d fl)) := by
  refine ⟨processItem_completion_eq env s d fl n, fun hg hb => ?_⟩
  have hitem : ∀ m, processItem env s d fl m = ⟨[Line.invalidFilter fl], [], m⟩ :=
    fun m => processItem_invalid env s d fl m hg hb
  refine ⟨by simp [hitem n], by simp [hitem n], ?_, ?_⟩
  · intro p
    rcases h : env.readDir s with e | entries <;>
      simp [processImagesWithWaitGroup, applyFilters, h,
        applyFiltersLoop_eq_map, hitem] <;>
      exact fun x _ _ hx => by simp [hx]
  · intro p
    rcases h : env.readDir s with e | entries <;>
      simp [channelOps, channel_itemResults_eq_applyFilters, applyFilters, h,
        applyFiltersLoop_eq_map, hitem] <;>
      exact fun x _ _ hx => by simp [hx]

/-- Instantiation of `item_always_emits_one_completion` at the invalid
filter value `sepia` on `envW`: the completion still carries the file
name, one "Invalid filter" report is produced, and nothing is written. -/
theorem item_always_emits_one_completion_witness :
    (processItem envW "s" "d" "sepia" "a.png").completion = "a.png" ∧
    (processItem envW "s" "d" "sepia" "a.png").reports
      = [Line.invalidFilter "sepia"] ∧
    (processItem envW "s" "d" "sepia" "a.png").ops = [] ∧
    Op.saveImg (pathJoin "d" "a.png") ∉ channelOps envW "s" "d" "sepia" := by
  have h := item_always_emits_one_completion envW "s" "d" "sepia" "a.png"
  have h2 := h.2 (by decide) (by decide)
  exact ⟨h.1, h2.1, h2.2.1, h2.2.2.2 (pathJoin "d" "a.png")⟩

/-- C3: under Dispatch Strategy A the single worker processes eligible
entries sequentially and sends on an unbuffered channel, so the
"Finished processing" lines appear in exactly the directory-enumeration
order of the non-directory entries. -/
theorem waitgroup_completion_order (env : Env) (s d fl : String)
    (entries : List FileInfo) (h : env.readDir s = .ok entries) :
    (processImagesWithWaitGroup env s d fl).completions
      = (eligibleEntries entries).map (fun f => f.name) := by
  simp [processImagesWithWaitGroup, applyFilters, h, applyFiltersLoop_eq_map,
    processItem_completion_eq]

/-- Instantiation of `waitgroup_completion_order` on `envW`: the
completions are exactly `a.png` then `b.png`, in enumeration order. -/
theorem waitgroup_completion_order_witness :
    (processImagesWithWaitGroup envW "s" "d" "grayscale").completions
      = ["a.png", "b.png"] := by
  have h := waitgroup_completion_order envW "s" "d" "grayscale"
    [⟨"a.png", false⟩, ⟨"sub", true⟩, ⟨"b.png", false⟩] rfl
  simpa using h

/-- C4 counterexample: under Strategy B the directory check sits inside
the spawned goroutine (src/main.go lines 131-140), so when the
enumeration holds only the subdirectory `sub`, a worker task is spawned
for that directory entry — contradicting "no worker task is ever spawned
for a directory entry". -/
theorem channel_spawns_task_for_directory :
    FileInfo.mk "sub" true
        ∈ (processImagesWithChannel envDirOnly "s" "d" "grayscale").spawned ∧
    (FileInfo.mk "sub" true).isDir = true := by
  constructor
  · simp [processImagesWithChannel, envDirOnly]
  · rfl

/-- C4 amended: under Strategy B one task is spawned per enumerated entry
— directory entries included — and the directory test inside each worker
makes it return without processing or sending, so no directory entry ever
yields an item result; under Strategy A the single worker skips directory
entries before processing.  Hence under both strategies exactly the
non-directory entries are processed. -/
theorem dispatch_directory_filtering (env : Env) (s d fl : String)
    (entries : List FileInfo) (h : env.readDir s = .ok entries) :
    (processImagesWithChannel env s d fl).spawned = entries ∧
    (∀ f ∈ entries, f.isDir = true → channelWorker env s d fl f = none) ∧
    (processImagesWithChannel env s d fl).itemResults
      = (eligibleEntries entries).map (fun f => processItem env s d fl f.name) ∧
    applyFiltersLoop env s d fl entries
      = (eligibleEntries entries).map (fun f => processItem env s d fl f.name) := by
  refine ⟨by simp [processImagesWithChannel, h], ?_, ?_, applyFiltersLoop_eq_map env s d fl entries⟩
  · intro f _ hf
    simp [channelWorker, hf]
  · rw [channel_itemResults_eq_applyFilters]
    simp [applyFilters, h, applyFiltersLoop_eq_map]

/-- Instantiation of `dispatch_directory_filtering` on `envDirOnly`
(a single subdirectory): the task list is the whole enumeration, yet no
item result is produced. -/
theorem dispatch_directory_filtering_witness :
    (processImagesWithChannel envDirOnly "s" "d" "grayscale").spawned
      = [FileInfo.mk "sub" true] ∧
    (processImagesWithChannel envDirOnly "s" "d" "grayscale").itemResults = [] := by
  have h := dispatch_directory_filtering envDirOnly "s" "d" "grayscale"
    [FileInfo.mk "sub" true] rfl
  refine ⟨h.1, ?_⟩
  have h3 := h.2.2.1
  simpa [eligibleEntries] using h3

/-- C5: when directory enumeration fails, both strategies abort: exactly
one enumeration-error line, the `ReadDir` call as the only file-system
operation, and zero completion events; Strategy B spawns no worker and
allocates no channel.  Termination is reflected by both runs returning:
in the source, the Strategy A worker's deferred `wg.Done` still fires, so
the supervisor closes the channel and the collector loop ends. -/
theorem enumeration_failure_aborts (env : Env) (s d fl e : String)
    (h : env.readDir s = .error e) :
    processImagesWithWaitGroup env s d fl
      = ⟨[Line.errReadDir e], [Op.readDirOp s], []⟩ ∧
    processImagesWithChannel env s d fl = ⟨some e, [], none, []⟩ := by
  constructor <;>
    simp [processImagesWithWaitGroup, processImagesWithChannel, applyFilters, h]

/-- Instantiation of `enumeration_failure_aborts` on `envErr`. -/
theorem enumeration_failure_aborts_witness :
    processImagesWithWaitGroup envErr "s" "d" "grayscale"
      = ⟨[Line.errReadDir "permission denied"], [Op.readDirOp "s"], []⟩ ∧
    processImagesWithChannel envErr "s" "d" "grayscale"
      = ⟨some "permission denied", [], none, []⟩ :=
  enumeration_failure_aborts envErr "s" "d" "grayscale" "permission denied" rfl

/-- C6: Strategy B allocates its completion channel with capacity
`len(fileList)`, the number of enumerated entries, and the number of
channel sends — one per non-directory entry — never exceeds that
capacity, so a send never blocks however slowly the collector drains. -/
theorem channel_capacity_covers_sends (env : Env) (s d fl : String)
    (entries : List FileInfo) (h : env.readDir s = .ok entries) :
    (processImagesWithChannel env s d fl).capacity = some entries.length ∧
    Multiset.card (channelCompletions (processImagesWithChannel env s d fl))
      ≤ entries.length := by
  refine ⟨by simp [processImagesWithChannel, h], ?_⟩
  have hitems : (processImagesWithChannel env s d fl).itemResults
      = (eligibleEntries entries).map (fun f => processItem env s d fl f.name) := by
    rw [channel_itemResults_eq_applyFilters]
    simp [applyFilters, h, applyFiltersLoop_eq_map]
  rw [channelCompletions, hitems]
  simpa [eligibleEntries] using List.length_filter_le (fun f => !f.isDir) entries

/-- Instantiation of `channel_capacity_covers_sends` on `envW`: capacity
three, two sends. -/
theorem channel_capacity_covers_sends_witness :
    (processImagesWithChannel envW "s" "d" "grayscale").capacity = some 3 ∧
    Multiset.card
      (channelCompletions (processImagesWithChannel envW "s" "d" "grayscale")) ≤ 3 := by
  have h := channel_capacity_covers_sends envW "s" "d" "grayscale"
    [⟨"a.png", false⟩, ⟨"sub", true⟩, ⟨"b.png", false⟩] rfl
  simpa using h

/-- C7: the two dispatch strategies are equivalent up to completion order:
for every environment, source, destination and filter they produce the
same multiset of completion events, issue the same file-system and
collaborator calls (open, transform, save — to the same destination
paths), and print the same report lines; only the order in which
completions reach the collector differs (a list for Strategy A, a
multiset for Strategy B). -/
theorem strategies_equivalent (env : Env) (s d fl : String) :
    (↑(processImagesWithWaitGroup env s d fl).completions : Multiset String)
      = channelCompletions (processImagesWithChannel env s d fl) ∧
    (processImagesWithWaitGroup env s d fl).ops = channelOps env s d fl ∧
    (processImagesWithWaitGroup env s d fl).reports
      = channelReports env s d fl := by
  have hitems := channel_itemResults_eq_applyFilters env s d fl
  refine ⟨?_, ?_, ?_⟩
  · rw [channelCompletions, hitems]
    rfl
  · rw [channelOps, hitems]
    rfl
  · rw [channelReports]
    rcases h : env.readDir s with e | entries <;>
      simp [processImagesWithWaitGroup, processImagesWithChannel, applyFilters,
        ChannelRun.itemResults, h, List.reduceOption, channelWorkers_eq_map,
        applyFiltersLoop_eq_map]

/-- C8: if any of the four flag values is empty, `main` prints the usage
line and returns — a normal exit with status 0, since the source never
calls `os.Exit` — performing no file-system or collaborator operation at
all; an unrecognized `-task` value likewise prints "Invalid task method"
and performs no work. -/
theorem main_flag_guard (env : Env) (s d fl t : String) :
    ((s = "" ∨ d = "" ∨ fl = "" ∨ t = "") →
      mainRun env s d fl t = ⟨[Line.usage], [], 0⟩) ∧
    (s ≠ "" → d ≠ "" → fl ≠ "" → t ≠ "" → t ≠ "waitgrp" → t ≠ "channel" →
      mainRun env s d fl t = ⟨[Line.invalidTask t], [], 0⟩) := by
  constructor
  · intro h
    simp [mainRun, h]
  · intro hs hd hf ht h1 h2
    simp [mainRun, hs, hd, hf, ht, h1, h2]

/-- Instantiation of `main_flag_guard`: an empty `-src` yields only the
usage line, and the unrecognized task value `chan` yields only the
"Invalid task method" line; neither performs any operation. -/
theorem main_flag_guard_witness :
    mainRun envW "" "d" "grayscale" "waitgrp" = ⟨[Line.usage], [], 0⟩ ∧
    mainRun envW "s" "d" "grayscale" "chan"
      = ⟨[Line.invalidTask "chan"], [], 0⟩ :=
  ⟨(main_flag_guard envW "" "d" "grayscale" "waitgrp").1 (Or.inl rfl),
   (main_flag_guard envW "s" "d" "grayscale" "chan").2 (by decide) (by decide)
     (by decide) (by decide) (by decide) (by decide)⟩

/-- C9: the item processor writes only to the destination path obtained
by joining the destination directory with the item's unchanged file name:
every save operation it issues targets `pathJoin d n`, so the source file
and every other path are never written. -/
theorem item_writes_only_dest (env : Env) (s d fl n p : String)
    (h : Op.saveImg p ∈ (processItem env s d fl n).ops) :
    p = pathJoin d n ∧
    (pathJoin s n ≠ pathJoin d n → p ≠ pathJoin s n) := by
  have hp : p = pathJoin d n := by
    by_cases hg : fl = "grayscale" <;> by_cases hb : fl = "blur" <;>
      rcases h1 : env.openErr (pathJoin s n) with _ | e <;>
      rcases h2 : env.saveErr (pathJoin d n) with _ | e' <;>
      simp [processItem, applyGrayscaleFilter, applyBlurFilter,
        hg, hb, h1, h2] at h <;>
      simp [h]
  exact ⟨hp, fun hne hps => hne (hps ▸ hp)⟩

/-- Instantiation of `item_writes_only_dest` on `envW`: processing
`a.png` with the grayscale filter saves to `d/a.png` and nowhere else. -/
theorem item_writes_only_dest_witness :
    Op.saveImg "d/a.png" ∈ (processItem envW "s" "d" "grayscale" "a.png").ops ∧
    "d/a.png" = pathJoin "d" "a.png" := by
  have hm : Op.saveImg "d/a.png"
      ∈ (processItem envW "s" "d" "grayscale" "a.png").ops := by decide
  exact ⟨hm, (item_writes_only_dest envW "s" "d" "grayscale" "a.png" "d/a.png" hm).1⟩

/-- C10: whenever the blur filter runs, the spatial-blur collaborator is
called with the fixed radius `5.0` (src/main.go line 42): every blur
operation appearing in a run of either dispatch strategy carries radius
five. -/
theorem blur_radius_always_five (env : Env) (s d fl : String) (r : ℚ)
    (h : Op.blurOp r ∈ (processImagesWithWaitGroup env s d fl).ops ∨
         Op.blurOp r ∈ channelOps env s d fl) :
    r = 5 := by
  have hitems : ∀ i ∈ (applyFilters env s d fl).2,
      ∃ m, i = processItem env s d fl m := by
    intro i hi
    rcases h' : env.readDir s with e | entries
    · simp [applyFilters, h'] at hi
    · simp only [applyFilters, h', applyFiltersLoop_eq_map] at hi
      rcases List.mem_map.mp hi with ⟨f, _, rfl⟩
      exact ⟨f.name, rfl⟩
  have key : Op.blurOp r
        ∈ (((applyFilters env s d fl).2).map (fun i => i.ops)).flatten → r = 5 := by
    intro hm
    rcases List.mem_flatten.mp hm with ⟨ops, hops, hr⟩
    rcases List.mem_map.mp hops with ⟨i, hi, rfl⟩
    rcases hitems i hi with ⟨m, rfl⟩
    exact processItem_blurOp env s d fl m r hr
  have hopsA : (processImagesWithWaitGroup env s d fl).ops
      = Op.readDirOp s
          :: (((applyFilters env s d fl).2).map (fun i => i.ops)).flatten := rfl
  have hopsB : channelOps env s d fl
      = Op.readDirOp s
          :: (((applyFilters env s d fl).2).map (fun i => i.ops)).flatten := by
    rw [channelOps, channel_itemResults_eq_applyFilters]
  rcases h with hA | hB
  · rw [hopsA] at hA
    rcases List.mem_cons.mp hA with h1 | h1
    · simp at h1
    · exact key h1
  · rw [hopsB] at hB
    rcases List.mem_cons.mp hB with h1 | h1
    · simp at h1
    · exact key h1

/-- Instantiation of `blur_radius_always_five` on `envW`: the blur run
does place a blur operation on the trace, and its radius is five. -/
theorem blur_radius_always_five_witness :
    Op.blurOp blurRadius ∈ (processImagesWithWaitGroup envW "s" "d" "blur").ops ∧
    blurRadius = 5 := by
  have hm : Op.blurOp blurRadius
      ∈ (processImagesWithWaitGroup envW "s" "d" "blur").ops := by decide
  exact ⟨hm, blur_radius_always_five envW "s" "d" "blur" blurRadius (Or.inl hm)⟩

end ImageGo
